import Mathlib

/-!
Shallow embedding of the matadata forensic file-analysis engine
(`src/utils/common.ts`, `src/utils/hashing.ts` and the parsers module).

Byte buffers (`Uint8Array` over an `ArrayBuffer`) are modelled as `List Nat`
whose elements are byte values. JavaScript strings built by
`String.fromCharCode` over bytes are modelled as `List Nat` of UTF-16 code
units, which for this code coincide with the byte values. Out-of-range
indexing on a `Uint8Array` yields `undefined` in JavaScript; we model a read
as `Option Nat` where the truthiness / strict-inequality behaviour of
`undefined` matters (the PNG magic check), and as the value `0` where the
read only feeds `<<`/`|` (ToInt32(undefined) = 0) or `String.fromCharCode`
(ToUint16(NaN) = 0), which is exactly what JavaScript produces there.
-/

/-- `data[i]` on a `Uint8Array`: `some` byte in range, `none` (= `undefined`)
out of range. -/
def jsByte (data : List Nat) (i : Nat) : Option Nat :=
  data[i]?

/-- `data[i]` in a numeric context (`<<`, `|`, `String.fromCharCode`): an
out-of-range read gives `undefined`, which those operators coerce to `0`.
The index is an `Int` because the PNG walk's `offset` can in principle go
negative. -/
def byteAt (data : List Nat) (i : Int) : Nat :=
  if h : 0 ≤ i ∧ i < (data.length : Int) then
    data.get ⟨i.toNat, by omega⟩
  else 0

/-- Reinterpret the low 32 bits of a natural number as a signed 32-bit
integer, as JavaScript's `<<` and `|` do (they operate on Int32). -/
def toInt32 (n : Nat) : Int :=
  if n % 2 ^ 32 < 2 ^ 31 then ((n % 2 ^ 32 : Nat) : Int)
  else ((n % 2 ^ 32 : Nat) : Int) - 2 ^ 32

/-- Code units of a Lean string literal, for writing JavaScript string
constants as `List Nat`. -/
def jstr (s : String) : List Nat :=
  s.data.map Char.toNat

/-- JavaScript `s.includes(sub)`: substring (contiguous) containment. -/
def jsIncludes (s sub : List Nat) : Bool :=
  decide (sub <:+: s)

/-! ## `extractStrings` (src/utils/common.ts lines 41-62) -/

/-- The byte test of the scan loop: printable ASCII `[0x20, 0x7E]` plus
tab (9), LF (10), CR (13). -/
def isPrintableByte (c : Nat) : Bool :=
  (32 ≤ c && c ≤ 126) || c == 9 || c == 10 || c == 13

/-- The scan loop of `extractStrings`: `cur` is the mutable `currentString`,
the match on the list is the `for` loop over `data`, and the `[]` case is
the trailing flush after the loop. -/
def extractGo (minLength : Nat) (cur : List Nat) : List Nat → List (List Nat)
  | [] => if minLength ≤ cur.length then [cur] else []
  | c :: rest =>
    if isPrintableByte c then
      extractGo minLength (cur ++ [c]) rest
    else if minLength ≤ cur.length then
      cur :: extractGo minLength [] rest
    else
      extractGo minLength [] rest

/-- `extractStrings(buffer, minLength = 4)`. -/
def extractStrings (data : List Nat) (minLength : Nat := 4) : List (List Nat) :=
  extractGo minLength [] data

/-! ## `getEntropy` (src/utils/common.ts lines 23-39)

The source computes with JavaScript IEEE-754 doubles; we model the same
arithmetic over the reals. The frequency histogram built by the loop
`for i, frequencies[data[i]]++` is `data.count i`; the outer loop adds
`-p * log2 p` for every bucket with `frequencies[i] > 0`. -/

noncomputable def getEntropy (data : List Nat) : ℝ :=
  -(∑ i ∈ Finset.range 256,
      if 0 < data.count i then
        ((data.count i : ℝ) / (data.length : ℝ))
          * Real.logb 2 ((data.count i : ℝ) / (data.length : ℝ))
      else 0)

/-! ## `parsePng` (parsers module, lines 46-79)

The chunk length is read as `(d[o] << 24) | (d[o+1] << 16) | (d[o+2] << 8) |
d[o+3]`; JavaScript's `<<` and `|` work on signed 32-bit integers, so the
value is `toInt32` of the big-endian word, which is negative when the top
bit of `d[o]` is set. The `while` loop has no a-priori bound, so the walk is
modelled with explicit fuel: `none` means the loop has not finished within
`fuel` iterations. -/

structure PngChunk where
  name : List Nat
  size : Int
  offset : Int
deriving DecidableEq, Repr

/-- The chunk `length` field as the source computes it (signed 32-bit). -/
def pngLength (data : List Nat) (o : Int) : Int :=
  toInt32 (byteAt data o * 2 ^ 24 + byteAt data (o + 1) * 2 ^ 16
    + byteAt data (o + 2) * 2 ^ 8 + byteAt data (o + 3))

/-- The chunk `type` tag: `String.fromCharCode(d[o+4], …, d[o+7])`. -/
def pngType (data : List Nat) (o : Int) : List Nat :=
  [byteAt data (o + 4), byteAt data (o + 5), byteAt data (o + 6),
   byteAt data (o + 7)]

/-- One-to-one image of the `while (offset < data.length)` loop; each
iteration consumes one unit of fuel. -/
def pngWalkFuel (data : List Nat) : Int → Nat → Option (List PngChunk)
  | _, 0 => none
  | offset, fuel + 1 =>
    if offset < (data.length : Int) then
      if offset + 8 > (data.length : Int) then some []
      else
        let len := pngLength data offset
        match pngWalkFuel data (offset + 4 + 4 + len + 4) fuel with
        | none => none
        | some rest => some (⟨pngType data offset, len, offset⟩ :: rest)
    else some []

/-- The magic-number check `data[0] !== 0x89 || … || data[3] !== 0x47`; an
out-of-range read gives `undefined`, which is `!==` any number. -/
def pngMagicBad (data : List Nat) : Bool :=
  jsByte data 0 != some 0x89 || jsByte data 1 != some 0x50
    || jsByte data 2 != some 0x4E || jsByte data 3 != some 0x47

structure PngResult where
  warnings : List String
  chunks : List PngChunk
deriving DecidableEq, Repr

/-- `parsePng`, with the EXIF capability (`parseImage` over the same file)
abstracted to the warnings it contributes; `none` models the JavaScript
function never returning because the chunk walk loops forever (the fuel
`data.length + 1` is enough for every loop that advances). -/
def parsePng (imgWarnings : List String) (data : List Nat) :
    Option PngResult :=
  match pngWalkFuel data 8 (data.length + 1) with
  | none => none
  | some cs =>
    some ⟨(if pngMagicBad data then ["Assinatura PNG inválida"] else [])
      ++ imgWarnings, cs⟩

/-- Signature + one `IEND` chunk (length 0, type, CRC): 20 bytes. -/
def pngIendBuf : List Nat :=
  [0x89, 0x50, 0x4E, 0x47, 0x0D, 0x0A, 0x1A, 0x0A,
   0, 0, 0, 0, 0x49, 0x45, 0x4E, 0x44, 0xAE, 0x42, 0x60, 0x82]

/-- Signature + a chunk whose length field is `FF FF FF FF`: the source
reads it as the signed value `-1`. -/
def pngNegBuf : List Nat :=
  [0x89, 0x50, 0x4E, 0x47, 0x0D, 0x0A, 0x1A, 0x0A,
   0xFF, 0xFF, 0xFF, 0xFF, 0x49, 0x45, 0x4E, 0x44]

/-- Signature + a chunk whose length field is `FF FF FF F4`: the source
reads it as `-12`, so `offset += 4 + 4 + length + 4` advances by zero. -/
def pngLoopBuf : List Nat :=
  [0x89, 0x50, 0x4E, 0x47, 0x0D, 0x0A, 0x1A, 0x0A,
   0xFF, 0xFF, 0xFF, 0xF4, 0x49, 0x45, 0x4E, 0x44]

/-! ## `parseFile` dispatch (parsers module, lines 218-241)

File names and MIME strings in this code are ASCII, where JavaScript
`toLowerCase()` is the ASCII case fold and `endsWith` is list-suffix on the
code units. -/

/-- JavaScript `name.toLowerCase()` (ASCII case fold). -/
def jsToLower (s : String) : String :=
  ⟨s.data.map (fun c =>
    if 'A' ≤ c && c ≤ 'Z' then Char.ofNat (c.toNat + 32) else c)⟩

/-- JavaScript `s.endsWith(suffix)`. -/
def jsEndsWith (s suffix : String) : Bool :=
  decide (suffix.data <:+ s.data)

def docxMime : String :=
  "application/vnd.openxmlformats-officedocument.wordprocessingml.document"

/-- The first `if` condition of `parseFile` (`lname` is the already
lowercased file name). -/
def jpegTest (type lname : String) : Bool :=
  type == "image/jpeg" || jsEndsWith lname ".jpg" || jsEndsWith lname ".jpeg"

def pngTest (type lname : String) : Bool :=
  type == "image/png" || jsEndsWith lname ".png"

def pdfTest (type lname : String) : Bool :=
  type == "application/pdf" || jsEndsWith lname ".pdf"

def docxTest (type lname : String) : Bool :=
  type == docxMime || jsEndsWith lname ".docx"

/-- Which parser `parseFile` hands the file to. -/
inductive ParserKind
  | IMAGE
  | PNG
  | PDF
  | DOCX
  | GENERIC
deriving DecidableEq, Repr

/-- The dispatch of `parseFile(file)` as a function of `file.type` and
`file.name`. -/
def parseFileKind (type name : String) : ParserKind :=
  let lname := jsToLower name
  if jpegTest type lname then .IMAGE
  else if pngTest type lname then .PNG
  else if pdfTest type lname then .PDF
  else if docxTest type lname then .DOCX
  else .GENERIC

/-! ## `parsePdf` (parsers module, lines 82-130)

`PDFDocument.load` (pdf-lib) is an external capability; it is modelled by
its outcome, `Except String PdfDoc`: `.error e` is a thrown exception with
message `e`, `.ok doc` a loaded document together with the values its
getters return. The body of the `try` block runs the substring heuristics
only after a successful load; the `catch` turns the exception into a
warning and leaves `metadata` as the empty object (`none` here). -/

structure PdfDoc where
  pageCount : Nat
  title : Option String
  author : Option String
  subject : Option String
  keywords : Option String
  creator : Option String
  producer : Option String
  creationDate : Option Int
  modificationDate : Option Int
deriving DecidableEq, Repr

structure PdfResult where
  metadata : Option PdfDoc
  warnings : List String
deriving DecidableEq, Repr

def pdfJsWarning : String :=
  "JavaScript embarcado detectado (potencialmente malicioso)"

def pdfAaWarning : String :=
  "Ações automáticas detectadas (/OpenAction ou /AA)"

def pdfErrWarning (e : String) : String :=
  "Erro ao analisar PDF: " ++ e

def parsePdf (load : Except String PdfDoc) (data : List Nat) : PdfResult :=
  match load with
  | .error e => ⟨none, [pdfErrWarning e]⟩
  | .ok doc =>
    let strings := extractStrings data 4
    let w1 :=
      if strings.any (fun s =>
          jsIncludes s (jstr "/JavaScript") || jsIncludes s (jstr "/JS"))
      then [pdfJsWarning] else []
    let w2 :=
      if strings.any (fun s =>
          jsIncludes s (jstr "/OpenAction") || jsIncludes s (jstr "/AA"))
      then [pdfAaWarning] else []
    ⟨some doc, w1 ++ w2⟩

/-! ## `parseDocx` (parsers module, lines 133-216)

External capabilities and their models:
- `JSZip.loadAsync` — `Except String DocxZip` (`.error` = throw);
- `entry.async("text")` for a present entry — `Except String String`
  (reading can throw inside the same `try`);
- `DOMParser` + `getElementsByTagName(tag)[0]?.textContent` — a function
  `xmlExtract : String → String → Option String` from the part's text and a
  tag name to the first matching element's text (`none` = `null`);
- `new Date(s)` — `jsDate : String → Option Int` giving the time value
  (`none` = Invalid Date, whose comparisons are all false, as NaN).

The mutable locals `metadata`, `xmlDump`, `warnings` survive a throw, so
each stage threads an accumulator and the first thrown error aborts the
remaining stages; the `catch` then appends the error warning to whatever
was accumulated. -/

structure DocxCore where
  creator : Option String
  lastModifiedBy : Option String
  revision : Option String
  created : Option String
  modified : Option String
  title : Option String
  subject : Option String
  description : Option String
deriving DecidableEq, Repr

structure DocxApp where
  template : Option String
  totalTime : Option String
  pages : Option String
  words : Option String
  application : Option String
  company : Option String
  docSecurity : Option String
deriving DecidableEq, Repr

/-- The three `docProps` entries of the ZIP package: `none` when
`zip.file(...)` finds no entry, otherwise the outcome of reading its
text. -/
structure DocxZip where
  coreFile : Option (Except String String)
  appFile : Option (Except String String)
  customFile : Option (Except String String)

/-- The mutable locals of `parseDocx` while inside the `try` block. -/
structure DocxAcc where
  core : Option DocxCore
  app : Option DocxApp
  xmlDump : String
  warnings : List String
deriving DecidableEq, Repr

/-- JavaScript truthiness of a `string | null` value (`null` and `""` are
falsy). -/
def jsTruthy : Option String → Bool
  | none => false
  | some s => s != ""

/-- `new Date(a) > new Date(b)`: false whenever either date is invalid
(`NaN` comparisons), otherwise numeric comparison of the time values. -/
def dateGt : Option Int → Option Int → Bool
  | some a, some b => decide (b < a)
  | _, _ => false

def docxTempWarning : String :=
  "Inconsistência Temporal: Criado depois de Modificado"

def docxErrWarning (e : String) : String :=
  "Erro ao analisar DOCX (ZIP): " ++ e

/-- `metadata.core` as built from `docProps/core.xml`'s text. -/
def mkDocxCore (xmlExtract : String → String → Option String)
    (text : String) : DocxCore :=
  ⟨xmlExtract text "dc:creator", xmlExtract text "cp:lastModifiedBy",
   xmlExtract text "cp:revision", xmlExtract text "dcterms:created",
   xmlExtract text "dcterms:modified", xmlExtract text "dc:title",
   xmlExtract text "dc:subject", xmlExtract text "dc:description"⟩

/-- `metadata.app` as built from `docProps/app.xml`'s text. -/
def mkDocxApp (xmlExtract : String → String → Option String)
    (text : String) : DocxApp :=
  ⟨xmlExtract text "Template", xmlExtract text "TotalTime",
   xmlExtract text "Pages", xmlExtract text "Words",
   xmlExtract text "Application", xmlExtract text "Company",
   xmlExtract text "DocSecurity"⟩

/-- Core-properties stage (lines 142-171), including the temporal
heuristic. -/
def docxCoreStage (xmlExtract : String → String → Option String)
    (jsDate : String → Option Int) (z : DocxZip) (a : DocxAcc) :
    DocxAcc × Option String :=
  match z.coreFile with
  | none => (a, none)
  | some (.error e) => (a, some e)
  | some (.ok text) =>
    let core := mkDocxCore xmlExtract text
    let a1 : DocxAcc :=
      { a with
        core := some core
        xmlDump := a.xmlDump ++ "--- docProps/core.xml ---\n" ++ text
          ++ "\n\n" }
    if jsTruthy core.created && jsTruthy core.modified then
      if dateGt (core.created.bind jsDate) (core.modified.bind jsDate) then
        ({ a1 with warnings := a1.warnings ++ [docxTempWarning] }, none)
      else (a1, none)
    else (a1, none)

/-- App-properties stage (lines 174-196). -/
def docxAppStage (xmlExtract : String → String → Option String)
    (z : DocxZip) (a : DocxAcc) : DocxAcc × Option String :=
  match z.appFile with
  | none => (a, none)
  | some (.error e) => (a, some e)
  | some (.ok text) =>
    (({ a with
        app := some (mkDocxApp xmlExtract text)
        xmlDump := a.xmlDump ++ "--- docProps/app.xml ---\n" ++ text
          ++ "\n\n" }), none)

/-- Custom-properties stage (lines 199-204): raw dump only. -/
def docxCustomStage (z : DocxZip) (a : DocxAcc) : DocxAcc × Option String :=
  match z.customFile with
  | none => (a, none)
  | some (.error e) => (a, some e)
  | some (.ok text) =>
    (({ a with
        xmlDump := a.xmlDump ++ "--- docProps/custom.xml ---\n" ++ text
          ++ "\n\n" }), none)

/-- The body of the `try` block after a successful `loadAsync`: runs the
three stages, stopping at the first thrown error. -/
def docxTry (xmlExtract : String → String → Option String)
    (jsDate : String → Option Int) (z : DocxZip) :
    DocxAcc × Option String :=
  match docxCoreStage xmlExtract jsDate z ⟨none, none, "", []⟩ with
  | (a, some e) => (a, some e)
  | (a, none) =>
    match docxAppStage xmlExtract z a with
    | (a, some e) => (a, some e)
    | (a, none) => docxCustomStage z a

structure DocxResult where
  core : Option DocxCore
  app : Option DocxApp
  xmlDump : String
  warnings : List String
deriving DecidableEq, Repr

def parseDocx (xmlExtract : String → String → Option String)
    (jsDate : String → Option Int) (zip : Except String DocxZip) :
    DocxResult :=
  match zip with
  | .error e => ⟨none, none, "", [docxErrWarning e]⟩
  | .ok z =>
    let r := docxTry xmlExtract jsDate z
    ⟨r.1.core, r.1.app, r.1.xmlDump,
     r.1.warnings ++ (match r.2 with
       | some e => [docxErrWarning e]
       | none => [])⟩

/-! ## Helper lemmas -/

theorem extractGo_inv (m : Nat) :
    ∀ (data cur : List Nat), (∀ c ∈ cur, isPrintableByte c = true) →
    ∀ s ∈ extractGo m cur data,
      m ≤ s.length ∧ ∀ c ∈ s, isPrintableByte c = true := by
  intro data
  induction data with
  | nil =>
    intro cur hcur s hs
    simp only [extractGo] at hs
    split at hs
    · rw [List.mem_singleton] at hs
      subst hs
      exact ⟨by assumption, hcur⟩
    · simp at hs
  | cons c rest ih =>
    intro cur hcur s hs
    simp only [extractGo] at hs
    split at hs
    · refine ih (cur ++ [c]) ?_ s hs
      intro x hx
      rcases List.mem_append.1 hx with h | h
      · exact hcur x h
      · rw [List.mem_singleton] at h
        subst h
        assumption
    · split at hs
      · rcases List.mem_cons.1 hs with rfl | h
        · exact ⟨by assumption, hcur⟩
        · exact ih [] (by intro x hx; simp at hx) s h
      · exact ih [] (by intro x hx; simp at hx) s hs

theorem isPrintableByte_iff (c : Nat) :
    isPrintableByte c = true ↔
      (32 ≤ c ∧ c ≤ 126) ∨ c = 9 ∨ c = 10 ∨ c = 13 := by
  simp only [isPrintableByte, Bool.or_eq_true, Bool.and_eq_true,
    decide_eq_true_eq, Nat.beq_eq_true_eq]
  tauto

theorem docxAppStage_preserves (X : String → String → Option String)
    (z : DocxZip) (a : DocxAcc) :
    (docxAppStage X z a).1.core = a.core ∧
      (docxAppStage X z a).1.warnings = a.warnings := by
  unfold docxAppStage
  rcases z.appFile with _ | e
  · exact ⟨rfl, rfl⟩
  · rcases e with e | t <;> exact ⟨rfl, rfl⟩

theorem docxCustomStage_preserves (z : DocxZip) (a : DocxAcc) :
    (docxCustomStage z a).1.core = a.core ∧
      (docxCustomStage z a).1.warnings = a.warnings := by
  unfold docxCustomStage
  rcases z.customFile with _ | e
  · exact ⟨rfl, rfl⟩
  · rcases e with e | t <;> exact ⟨rfl, rfl⟩

/-! ## Claims -/

/-- C1: the claim says the chunk walk of `parsePng` terminates for every
byte buffer and every value of the 4-byte big-endian length field. It does
not: JavaScript's `<<`/`|` read the length as a signed 32-bit integer, so
the field `FF FF FF F4` is read as `-12` and `offset += 4 + 4 + length + 4`
advances the offset by zero; on `pngLoopBuf` the loop revisits offset 8
forever — no amount of fuel finishes the walk. -/
theorem c1_png_walk_loops_forever :
    ∀ fuel, pngWalkFuel pngLoopBuf 8 fuel = none := by
  intro fuel
  induction fuel with
  | zero => rfl
  | succ n ih =>
    simp only [pngWalkFuel]
    norm_num [show pngLength pngLoopBuf 8 = -12 from by decide,
              show ((pngLoopBuf.length : Nat) : Int) = 16 from by decide]
    rw [ih]

/-- C5: `extractStrings` on `"AB\x00CDEF\x01GH"` with `minLength = 2`
yields `["AB", "CDEF", "GH"]` in buffer order, and on `"A\x00BCDE"` with
`minLength = 4` drops the length-1 run `"A"` and keeps `"BCDE"`. -/
theorem c5_extract_examples :
    extractStrings (jstr "AB\x00CDEF\x01GH") 2
        = [jstr "AB", jstr "CDEF", jstr "GH"] ∧
      extractStrings (jstr "A\x00BCDE") 4 = [jstr "BCDE"] := by
  constructor <;> decide

/-- C6: `getEntropy` is exactly 0 on the empty buffer and on every buffer
of `n` identical bytes. -/
theorem c6_entropy_zero :
    getEntropy [] = 0 ∧ ∀ (n b : Nat), getEntropy (List.replicate n b) = 0 := by
  constructor
  · unfold getEntropy
    simp
  · intro n b
    unfold getEntropy
    rw [neg_eq_zero]
    apply Finset.sum_eq_zero
    intro i _
    rcases eq_or_ne i b with rfl | hne
    · rw [List.count_replicate_self]
      rcases Nat.eq_zero_or_pos n with rfl | hn
      · simp
      · rw [if_pos hn, List.length_replicate]
        rw [div_self (by exact_mod_cast hn.ne' : (n : ℝ) ≠ 0)]
        rw [Real.logb_one, mul_zero]
    · simp [List.count_replicate, Ne.symm hne]

/-- C9: every string returned by `extractStrings` has length at least
`minLength` and consists only of bytes in `[0x20, 0x7E]` or 9, 10, 13. -/
theorem c9_extract_invariant (data : List Nat) (minLength : Nat)
    (s : List Nat) (hs : s ∈ extractStrings data minLength) :
    minLength ≤ s.length ∧
      ∀ c ∈ s, (32 ≤ c ∧ c ≤ 126) ∨ c = 9 ∨ c = 10 ∨ c = 13 := by
  obtain ⟨hlen, hall⟩ :=
    extractGo_inv minLength data [] (by intro x hx; simp at hx) s hs
  exact ⟨hlen, fun c hc => (isPrintableByte_iff c).1 (hall c hc)⟩

/-- C9 witness: the theorem applied to the concrete buffer `"ABCD"`. -/
theorem c9_extract_invariant_witness :
    4 ≤ (jstr "ABCD").length ∧
      ∀ c ∈ jstr "ABCD", (32 ≤ c ∧ c ≤ 126) ∨ c = 9 ∨ c = 10 ∨ c = 13 :=
  c9_extract_invariant (jstr "ABCD") 4 (jstr "ABCD") (by decide)

/-- C10: on every buffer shorter than 4 bytes `parsePng` returns (it does
not fail): the magic check pushes the invalid-signature warning (an
out-of-range read is `undefined`, which is `!==` every byte) and the chunk
walk exits at once, so the chunk list is empty. -/
theorem c10_short_buffer (imgWarnings : List String) (data : List Nat)
    (h : data.length < 4) :
    parsePng imgWarnings data =
      some ⟨"Assinatura PNG inválida" :: imgWarnings, []⟩ := by
  have hbad : pngMagicBad data = true := by
    have h3 : jsByte data 3 = none := by
      unfold jsByte
      exact List.getElem?_eq_none (by omega)
    simp [pngMagicBad, h3]
  have hwalk : pngWalkFuel data 8 (data.length + 1) = some [] := by
    simp only [pngWalkFuel]
    rw [if_neg (by exact_mod_cast by omega : ¬((8 : Int) < (data.length : Int)))]
  unfold parsePng
  rw [hwalk, hbad]
  rfl

/-- C10 witness: the theorem applied to the empty buffer. -/
theorem c10_short_buffer_witness :
    parsePng [] [] = some ⟨["Assinatura PNG inválida"], []⟩ :=
  c10_short_buffer [] [] (by decide)

/-- C7: the concrete behaviour the claim describes holds — on signature +
one `IEND` chunk header (length 0) + CRC the chunk list is exactly
`[{name := "IEND", size := 0, offset := 8}]` — but the general clause
"size equals the big-endian uint32 length field" does not: on `pngNegBuf`
(length field `FF FF FF FF`) the recorded size is the signed value `-1`,
not the uint32 value `4294967295`. -/
theorem c7_png_chunk_record :
    parsePng [] pngIendBuf = some ⟨[], [⟨jstr "IEND", 0, 8⟩]⟩ ∧
      parsePng [] pngNegBuf = some ⟨[], [⟨jstr "IEND", -1, 8⟩]⟩ ∧
      pngLength pngNegBuf 8 ≠ 4294967295 := by
  refine ⟨by decide, by decide, by decide⟩

/-- C2 counterexample: the claim says a file whose MIME type is one of the
four supported formats is routed to that format's parser regardless of the
extension; but MIME `application/pdf` with file name `a.jpg` is routed to
the image parser, because the JPEG test (`MIME === "image/jpeg" ||
extension test`) runs first and its extension half matches. -/
theorem c2_counterexample :
    parseFileKind "application/pdf" "a.jpg" = ParserKind.IMAGE ∧
      parseFileKind "application/pdf" "a.jpg" ≠ ParserKind.PDF := by
  decide

/-- C2 (amended): dispatch tries the formats in the fixed order JPEG → PNG
→ PDF → DOCX, each testing `MIME match || extension match`; a MIME match
routes to that format's parser provided no earlier format's test matched.
The two cited examples hold: MIME `image/png` with extension `.dat` routes
to the PNG parser, and no MIME with extension `.pdf` routes to the PDF
parser. -/
theorem c2_dispatch_order :
    parseFileKind "image/png" "file.dat" = ParserKind.PNG ∧
      parseFileKind "" "report.pdf" = ParserKind.PDF ∧
      (∀ name, parseFileKind "image/jpeg" name = ParserKind.IMAGE) ∧
      (∀ name, jpegTest "image/png" (jsToLower name) = false →
        parseFileKind "image/png" name = ParserKind.PNG) ∧
      (∀ name, jpegTest "application/pdf" (jsToLower name) = false →
        pngTest "application/pdf" (jsToLower name) = false →
        parseFileKind "application/pdf" name = ParserKind.PDF) ∧
      (∀ name, jpegTest docxMime (jsToLower name) = false →
        pngTest docxMime (jsToLower name) = false →
        pdfTest docxMime (jsToLower name) = false →
        parseFileKind docxMime name = ParserKind.DOCX) := by
  refine ⟨by decide, by decide, ?_, ?_, ?_, ?_⟩
  · intro name
    simp [parseFileKind, jpegTest]
  · intro name h
    simp [parseFileKind, h, pngTest]
  · intro name h1 h2
    simp [parseFileKind, h1, h2, pdfTest]
  · intro name h1 h2 h3
    simp [parseFileKind, h1, h2, h3, docxTest]

/-- C2 witness: the amended dispatch theorem applied to the file name
`x.bin`, whose extension matches no earlier format. -/
theorem c2_dispatch_witness :
    parseFileKind "image/png" "x.bin" = ParserKind.PNG ∧
      parseFileKind "application/pdf" "x.bin" = ParserKind.PDF ∧
      parseFileKind docxMime "x.bin" = ParserKind.DOCX :=
  ⟨c2_dispatch_order.2.2.2.1 "x.bin" (by decide),
   c2_dispatch_order.2.2.2.2.1 "x.bin" (by decide) (by decide),
   c2_dispatch_order.2.2.2.2.2 "x.bin" (by decide) (by decide) (by decide)⟩

/-- A loaded PDF document with no metadata set, for concrete witnesses. -/
def pdfDoc0 : PdfDoc := ⟨0, none, none, none, none, none, none, none, none⟩

/-- C3 counterexample: the claim says the script heuristic fires for every
input whose extracted strings contain `/JavaScript`, including when the
document load fails; but the heuristics live inside the `try` block after
`PDFDocument.load`, so on a failing load the only warning is the
parse-failure one even though the buffer is the very string
`/JavaScript`. -/
theorem c3_counterexample :
    (extractStrings (jstr "/JavaScript") 4).any (fun s =>
        jsIncludes s (jstr "/JavaScript") || jsIncludes s (jstr "/JS"))
        = true ∧
      pdfJsWarning ∉ (parsePdf (.error "x") (jstr "/JavaScript")).warnings := by
  decide

/-- C3 (amended): the substring heuristics run only when the document
loads. On a successful load, extracted strings containing `/JavaScript` or
`/JS` yield the embedded-JavaScript warning and strings containing
`/OpenAction` or `/AA` yield the automatic-action warning; on a failing
load the warnings are exactly the parse-failure warning. -/
theorem c3_pdf_heuristics (doc : PdfDoc) (data : List Nat) (e : String) :
    ((extractStrings data 4).any (fun s =>
        jsIncludes s (jstr "/JavaScript") || jsIncludes s (jstr "/JS"))
        = true →
      pdfJsWarning ∈ (parsePdf (.ok doc) data).warnings) ∧
    ((extractStrings data 4).any (fun s =>
        jsIncludes s (jstr "/OpenAction") || jsIncludes s (jstr "/AA"))
        = true →
      pdfAaWarning ∈ (parsePdf (.ok doc) data).warnings) ∧
    (parsePdf (.error e) data).warnings = [pdfErrWarning e] := by
  refine ⟨?_, ?_, rfl⟩
  · intro h
    simp only [parsePdf, h, if_true]
    exact List.mem_append_left _ (List.mem_singleton_self _)
  · intro h
    simp only [parsePdf, h, if_true]
    exact List.mem_append_right _ (List.mem_singleton_self _)

/-- C3 witness: the amended theorem applied to a loaded document over the
buffer `"/JavaScript /OpenAction"` and to a load failure. -/
theorem c3_pdf_heuristics_witness :
    pdfJsWarning ∈
        (parsePdf (.ok pdfDoc0) (jstr "/JavaScript /OpenAction")).warnings ∧
      pdfAaWarning ∈
        (parsePdf (.ok pdfDoc0) (jstr "/JavaScript /OpenAction")).warnings ∧
      (parsePdf (.error "x") []).warnings = [pdfErrWarning "x"] :=
  ⟨(c3_pdf_heuristics pdfDoc0 (jstr "/JavaScript /OpenAction") "x").1
      (by decide),
   (c3_pdf_heuristics pdfDoc0 (jstr "/JavaScript /OpenAction") "x").2.1
      (by decide),
   (c3_pdf_heuristics pdfDoc0 [] "x").2.2⟩

/-- C4: every capability failure is caught. A failing `PDFDocument.load`
or `JSZip.loadAsync` yields a result whose warnings are non-empty; a throw
inside the DOCX `try` body (`docxTry` ending in `some e`) also yields
non-empty warnings; and the metadata accumulated before the throw (`core`,
`app`) is exactly what the result carries. -/
theorem c4_parse_failures_caught
    (X : String → String → Option String) (D : String → Option Int)
    (e : String) (data : List Nat) (z : DocxZip) :
    (parsePdf (.error e) data).warnings ≠ [] ∧
      (parseDocx X D (.error e)).warnings ≠ [] ∧
      ((docxTry X D z).2.isSome = true →
        (parseDocx X D (.ok z)).warnings ≠ []) ∧
      (parseDocx X D (.ok z)).core = (docxTry X D z).1.core ∧
      (parseDocx X D (.ok z)).app = (docxTry X D z).1.app := by
  refine ⟨by simp [parsePdf], by simp [parseDocx], ?_, ?_, ?_⟩
  · intro hsome
    rcases herr : docxTry X D z with ⟨a, err⟩
    rw [herr] at hsome
    rcases err with _ | e2
    · simp at hsome
    · simp [parseDocx, herr]
  · rcases herr : docxTry X D z with ⟨a, err⟩
    rcases err with _ | e2 <;> simp [parseDocx, herr]
  · rcases herr : docxTry X D z with ⟨a, err⟩
    rcases err with _ | e2 <;> simp [parseDocx, herr]

/-- An XML-extraction capability that finds nothing. -/
def docxX0 : String → String → Option String := fun _ _ => none

/-- A date capability for which every string is an invalid date. -/
def docxD0 : String → Option Int := fun _ => none

/-- A package whose `docProps/core.xml` entry exists but whose read
throws. -/
def docxZ0 : DocxZip := ⟨some (.error "boom"), none, none⟩

/-- C4 witness: the theorem applied to a package whose core entry read
throws, and to a failing PDF load. -/
theorem c4_parse_failures_witness :
    (parseDocx docxX0 docxD0 (.ok docxZ0)).warnings ≠ [] ∧
      (parsePdf (.error "x") []).warnings ≠ [] :=
  ⟨(c4_parse_failures_caught docxX0 docxD0 "x" [] docxZ0).2.2.1 (by decide),
   (c4_parse_failures_caught docxX0 docxD0 "x" [] docxZ0).1⟩

theorem docxTry_after_core (X : String → String → Option String)
    (D : String → Option Int) (z : DocxZip) (a1 : DocxAcc)
    (hstage : docxCoreStage X D z ⟨none, none, "", []⟩ = (a1, none)) :
    (docxTry X D z).1.core = a1.core ∧
      (docxTry X D z).1.warnings = a1.warnings := by
  unfold docxTry
  rw [hstage]
  rcases happ : docxAppStage X z a1 with ⟨a2, err2⟩
  obtain ⟨hc2, hw2⟩ := docxAppStage_preserves X z a1
  rw [happ] at hc2 hw2
  rcases err2 with _ | e2
  · simp only [happ]
    rcases hcust : docxCustomStage z a2 with ⟨a3, err3⟩
    obtain ⟨hc3, hw3⟩ := docxCustomStage_preserves z a2
    rw [hcust] at hc3 hw3
    simp only [hcust]
    rcases err3 with _ | e3 <;> exact ⟨hc3.trans hc2, hw3.trans hw2⟩
  · simp only [happ]
    exact ⟨hc2, hw2⟩

/-- C8: whenever `docProps/core.xml` is present and readable and both
`dcterms:created` and `dcterms:modified` are non-empty strings that parse
as valid dates with created strictly after modified, the warnings of
`parseDocx` contain the temporal-inconsistency warning — for every creator
value — and `metadata.core` is the record extracted from the part; in
particular when `dc:creator` is `"A"`, `metadata.core.creator = "A"`. -/
theorem c8_docx_temporal (X : String → String → Option String)
    (D : String → Option Int) (z : DocxZip) (text cs ms : String)
    (d1 d2 : Int)
    (hcore : z.coreFile = some (.ok text))
    (hcs : X text "dcterms:created" = some cs)
    (hms : X text "dcterms:modified" = some ms)
    (hcs0 : cs ≠ "") (hms0 : ms ≠ "")
    (hd1 : D cs = some d1) (hd2 : D ms = some d2) (hlt : d2 < d1) :
    docxTempWarning ∈ (parseDocx X D (.ok z)).warnings ∧
      (parseDocx X D (.ok z)).core = some (mkDocxCore X text) ∧
      (X text "dc:creator" = some "A" →
        ∃ c, (parseDocx X D (.ok z)).core = some c ∧
          c.creator = some "A") := by
  have hstage : docxCoreStage X D z ⟨none, none, "", []⟩ =
      (⟨some (mkDocxCore X text), none,
        "" ++ "--- docProps/core.xml ---\n" ++ text ++ "\n\n",
        [] ++ [docxTempWarning]⟩, none) := by
    unfold docxCoreStage
    rw [hcore]
    have ht1 : jsTruthy (mkDocxCore X text).created = true := by
      simp [mkDocxCore, hcs, jsTruthy, bne_iff_ne, hcs0]
    have ht2 : jsTruthy (mkDocxCore X text).modified = true := by
      simp [mkDocxCore, hms, jsTruthy, bne_iff_ne, hms0]
    have hgt : dateGt ((mkDocxCore X text).created.bind D)
        ((mkDocxCore X text).modified.bind D) = true := by
      simp [mkDocxCore, hcs, hms, hd1, hd2, dateGt, hlt]
    simp only [ht1, ht2, hgt, Bool.and_self, if_true]
  obtain ⟨hcoreEq, hwEq⟩ := docxTry_after_core X D z _ hstage
  have hcoreRes : (parseDocx X D (.ok z)).core = some (mkDocxCore X text) := by
    rcases herr : docxTry X D z with ⟨a, err⟩
    rw [herr] at hcoreEq
    have hA : a.core = some (mkDocxCore X text) := hcoreEq
    rcases err with _ | e2 <;> simp [parseDocx, herr, hA]
  refine ⟨?_, hcoreRes, fun hcr =>
    ⟨mkDocxCore X text, hcoreRes, by simp [mkDocxCore, hcr]⟩⟩
  rcases herr : docxTry X D z with ⟨a, err⟩
  rw [herr] at hwEq
  have hW : a.warnings = [docxTempWarning] := hwEq
  rcases err with _ | e2 <;> simp [parseDocx, herr, hW]

/-- An XML-extraction capability matching a core part with creator `"A"`,
created `2020-01-02` and modified `2020-01-01`. -/
def sampleXmlExtract : String → String → Option String := fun _ tag =>
  if tag = "dc:creator" then some "A"
  else if tag = "dcterms:created" then some "2020-01-02"
  else if tag = "dcterms:modified" then some "2020-01-01"
  else none

/-- A date capability giving the two sample dates their day numbers. -/
def sampleJsDate : String → Option Int := fun s =>
  if s = "2020-01-02" then some 18263
  else if s = "2020-01-01" then some 18262
  else none

/-- A package with only a readable `docProps/core.xml`. -/
def sampleZip : DocxZip := ⟨some (.ok "<coreProperties/>"), none, none⟩

/-- C8 witness: the theorem applied to the sample package with
created = 2020-01-02 after modified = 2020-01-01 and creator `"A"`. -/
theorem c8_docx_temporal_witness :
    docxTempWarning ∈
        (parseDocx sampleXmlExtract sampleJsDate (.ok sampleZip)).warnings ∧
      (∃ c, (parseDocx sampleXmlExtract sampleJsDate (.ok sampleZip)).core
        = some c ∧ c.creator = some "A") :=
  ⟨(c8_docx_temporal sampleXmlExtract sampleJsDate sampleZip
      "<coreProperties/>" "2020-01-02" "2020-01-01" 18263 18262
      rfl rfl rfl (by decide) (by decide) rfl rfl (by decide)).1,
   (c8_docx_temporal sampleXmlExtract sampleJsDate sampleZip
      "<coreProperties/>" "2020-01-02" "2020-01-01" 18263 18262
      rfl rfl rfl (by decide) (by decide) rfl rfl (by decide)).2.2 rfl⟩
